import Mathlib

/-!
Verification of the `iter-transpose` Rust crate (`src/lib.rs`).

Rust iterators are embedded as explicit state machines: a state type `σ`
together with a step function `next : σ → Option ι × σ` returning the
yielded item (`none` signals end of sequence, matching Rust's
`Iterator::next` returning `None`) and the successor state.  The generic
`I : Iterator` wrapped inside the adapters is embedded as a `List` cursor
whose `next` pops the head.  Rust's `Option` maps to Lean's `Option`,
Rust's `Result<T, E>` to `Except ε τ`, and `E: Clone` duplication is value
copying (the embedding makes retention of the original observable through
the adapter state).
-/

/-- Step function of the embedded underlying cursor: `Iterator::next` of a
list iterator pops the head, and keeps returning `none` once empty. -/
def listNext {α : Type} : List α → Option α × List α
  | [] => (none, [])
  | x :: xs => (some x, xs)

/-- Rust struct `OptionTransposedIter<I>` (src/lib.rs:287-289) with its
single field `optional_iter: Option<I>`. -/
structure OptionTransposedIter (α : Type) where
  optional_iter : Option (List α)

/-- Rust impl `Iterator for OptionTransposedIter` (src/lib.rs:333-337):
`self.optional_iter.as_mut().map_or(Some(None), |iter| iter.next().map(Some))`.
When the wrapper is `None` the call yields item `Some(None)` and leaves the
state alone; when it is `Some(iter)` the underlying cursor is advanced and
its output is mapped through `Some`. -/
def OptionTransposedIter.next {α : Type} (it : OptionTransposedIter α) :
    Option (Option α) × OptionTransposedIter α :=
  match it.optional_iter with
  | none => (some none, it)
  | some l => ((listNext l).1.map some, ⟨some (listNext l).2⟩)

/-- Rust struct `ResultTransposedIter<I, E>` (src/lib.rs:343-345) with its
single field `result_iter: Result<I, E>`. -/
structure ResultTransposedIter (α ε : Type) where
  result_iter : Except ε (List α)

/-- Rust impl `Iterator for ResultTransposedIter` (src/lib.rs:391-396):
`Ok(iter) => iter.next().map(Ok), Err(err) => Some(Err(err.clone()))`.
Cloning the retained error is value duplication; the `Err` state is left
unchanged. -/
def ResultTransposedIter.next {α ε : Type} (it : ResultTransposedIter α ε) :
    Option (Except ε α) × ResultTransposedIter α ε :=
  match it.result_iter with
  | .ok l => ((listNext l).1.map Except.ok, ⟨.ok (listNext l).2⟩)
  | .error e => (some (.error e), it)

/-- Rust `<Option<I> as IterTranspose>::transpose_into_iter` (src/lib.rs:254-258):
wraps the input, converting the carried iterable into its iterator. -/
def optionTransposeIntoIter {α : Type} (o : Option (List α)) :
    OptionTransposedIter α :=
  ⟨o⟩

/-- Rust `<Result<I, E> as IterTranspose>::transpose_into_iter`
(src/lib.rs:277-281): wraps the input, converting the carried iterable into
its iterator. -/
def resultTransposeIntoIter {α ε : Type} (r : Except ε (List α)) :
    ResultTransposedIter α ε :=
  ⟨r⟩

/-- Outputs of `k` successive `next` calls on a step function, newest last.
Each entry is `some item` for a yielded item or `none` for an
end-of-sequence answer. -/
def iterOutputs {σ ι : Type} (next : σ → Option ι × σ) : Nat → σ → List (Option ι)
  | 0, _ => []
  | n + 1, s => (next s).1 :: iterOutputs next n (next s).2

/-- State of a step function after `k` successive `next` calls. -/
def stateAfter {σ ι : Type} (next : σ → Option ι × σ) : Nat → σ → σ
  | 0, s => s
  | n + 1, s => stateAfter next n (next s).2

/-- Collected output of Rust's `take_while(p)` adapter run to completion
over a step function, with explicit fuel `n` bounding the number of `next`
calls (the embedding artifact making the recursion structural; every use
below supplies fuel large enough that the pipeline has already stopped). -/
def collectTakeWhile {σ ι : Type} (next : σ → Option ι × σ) (p : ι → Bool) :
    Nat → σ → List ι
  | 0, _ => []
  | n + 1, s =>
    match (next s).1 with
    | none => []
    | some x =>
      if p x then x :: collectTakeWhile next p n (next s).2 else []

/-- Collected output of Rust's `take_while(p).map(f)` adapter run to
completion, where the per-item map `f` is fallible: `f x = none` models the
map function panicking on `x` (as `Option::unwrap` / `Result::unwrap` do on
`None` / `Err`), and makes the whole collection produce `none`. -/
def collectTakeWhileMap {σ ι β : Type} (next : σ → Option ι × σ) (p : ι → Bool)
    (f : ι → Option β) : Nat → σ → Option (List β)
  | 0, _ => some []
  | n + 1, s =>
    match (next s).1 with
    | none => some []
    | some x =>
      if p x then
        match f x with
        | none => none
        | some y => (collectTakeWhileMap next p f n (next s).2).map (fun l => y :: l)
      else some []

/-- Model of `Option::unwrap` as a fallible map: the `None` branch panics,
embedded as producing `none`. -/
def unwrapO {α : Type} : Option α → Option α
  | some x => some x
  | none => none

/-- Model of `Result::unwrap` as a fallible map: the `Err` branch panics,
embedded as producing `none`. -/
def unwrapR {α ε : Type} : Except ε α → Option α
  | .ok x => some x
  | .error _ => none

/-- Fuel sufficient for the Option pipeline to have stopped: one call past
the length of a carried sequence. -/
def optionFuel {α : Type} (o : Option (List α)) : Nat :=
  match o with
  | none => 1
  | some l => l.length + 1

/-- Fuel sufficient for the Result pipeline to have stopped: one call past
the length of a carried sequence. -/
def resultFuel {α ε : Type} (r : Except ε (List α)) : Nat :=
  match r with
  | .error _ => 1
  | .ok l => l.length + 1

/-- Rust `<Option<I> as IterTranspose>::transpose` (src/lib.rs:247-252):
`self.transpose_into_iter().take_while_some().collect()`, where
`take_while_some` (src/lib.rs:307-309) is `take_while(Option::is_some)`.
The fuel argument is the embedding artifact; fuel independence above the
supplied bound is proved below. -/
def optionTranspose {α : Type} (o : Option (List α)) : List (Option α) :=
  collectTakeWhile OptionTransposedIter.next Option.isSome (optionFuel o)
    (optionTransposeIntoIter o)

/-- Rust `<Result<I, E> as IterTranspose>::transpose` (src/lib.rs:270-275):
`self.transpose_into_iter().take_while_ok().collect()`, where
`take_while_ok` (src/lib.rs:364-366) is `take_while(Result::is_ok)`. -/
def resultTranspose {α ε : Type} (r : Except ε (List α)) : List (Except ε α) :=
  collectTakeWhile ResultTransposedIter.next Except.isOk (resultFuel r)
    (resultTransposeIntoIter r)

/-! ### Step lemmas -/

theorem optNext_none {α : Type} :
    OptionTransposedIter.next (⟨none⟩ : OptionTransposedIter α) = (some none, ⟨none⟩) :=
  rfl

theorem optNext_nil {α : Type} :
    OptionTransposedIter.next (⟨some []⟩ : OptionTransposedIter α) = (none, ⟨some []⟩) :=
  rfl

theorem optNext_cons {α : Type} (x : α) (xs : List α) :
    OptionTransposedIter.next ⟨some (x :: xs)⟩ = (some (some x), ⟨some xs⟩) :=
  rfl

theorem resNext_err {α ε : Type} (e : ε) :
    ResultTransposedIter.next (⟨.error e⟩ : ResultTransposedIter α ε)
      = (some (.error e), ⟨.error e⟩) :=
  rfl

theorem resNext_nil {α ε : Type} :
    ResultTransposedIter.next (⟨.ok []⟩ : ResultTransposedIter α ε) = (none, ⟨.ok []⟩) :=
  rfl

theorem resNext_cons {α ε : Type} (x : α) (xs : List α) :
    ResultTransposedIter.next (⟨.ok (x :: xs)⟩ : ResultTransposedIter α ε)
      = (some (.ok x), ⟨.ok xs⟩) :=
  rfl

/-! ### Output-run lemmas -/

theorem iterOutputs_optSpent {α : Type} (k : Nat) :
    iterOutputs OptionTransposedIter.next k (⟨some []⟩ : OptionTransposedIter α)
      = List.replicate k none := by
  induction k with
  | zero => rfl
  | succ n ih => simp [iterOutputs, optNext_nil, ih, List.replicate_succ]

theorem iterOutputs_optNone {α : Type} (k : Nat) :
    iterOutputs OptionTransposedIter.next k (⟨none⟩ : OptionTransposedIter α)
      = List.replicate k (some none) := by
  induction k with
  | zero => rfl
  | succ n ih => simp [iterOutputs, optNext_none, ih, List.replicate_succ]

theorem iterOutputs_optSome {α : Type} (S : List α) (k : Nat) :
    iterOutputs OptionTransposedIter.next (S.length + k) ⟨some S⟩
      = S.map (fun x => some (some x)) ++ List.replicate k none := by
  induction S with
  | nil => simpa using iterOutputs_optSpent k
  | cons x xs ih =>
    have hlen : (x :: xs).length + k = (xs.length + k) + 1 := by
      simp [List.length_cons]; omega
    rw [hlen]
    simp [iterOutputs, optNext_cons, ih]

theorem iterOutputs_resErr {α ε : Type} (e : ε) (k : Nat) :
    iterOutputs ResultTransposedIter.next k (⟨.error e⟩ : ResultTransposedIter α ε)
      = List.replicate k (some (.error e)) := by
  induction k with
  | zero => rfl
  | succ n ih => simp [iterOutputs, resNext_err, ih, List.replicate_succ]

theorem iterOutputs_resSpent {α ε : Type} (k : Nat) :
    iterOutputs ResultTransposedIter.next k (⟨.ok []⟩ : ResultTransposedIter α ε)
      = List.replicate k none := by
  induction k with
  | zero => rfl
  | succ n ih => simp [iterOutputs, resNext_nil, ih, List.replicate_succ]

theorem iterOutputs_resOk {α ε : Type} (S : List α) (k : Nat) :
    iterOutputs ResultTransposedIter.next (S.length + k)
        (⟨.ok S⟩ : ResultTransposedIter α ε)
      = S.map (fun x => some (.ok x)) ++ List.replicate k none := by
  induction S with
  | nil => simpa using iterOutputs_resSpent (α := α) (ε := ε) k
  | cons x xs ih =>
    have hlen : (x :: xs).length + k = (xs.length + k) + 1 := by
      simp [List.length_cons]; omega
    rw [hlen]
    simp [iterOutputs, resNext_cons, ih]

/-! ### State-run lemmas -/

theorem stateAfter_optSome {α : Type} (S : List α) :
    stateAfter OptionTransposedIter.next S.length ⟨some S⟩
      = (⟨some []⟩ : OptionTransposedIter α) := by
  induction S with
  | nil => rfl
  | cons x xs ih => simpa [stateAfter, optNext_cons] using ih

theorem stateAfter_optStep {α : Type} (s : OptionTransposedIter α) :
    ((OptionTransposedIter.next s).2).optional_iter.isSome = s.optional_iter.isSome := by
  cases s with
  | mk o =>
    cases o with
    | none => rfl
    | some l => rfl

theorem stateAfter_optDiscriminant {α : Type} (k : Nat) (s : OptionTransposedIter α) :
    (stateAfter OptionTransposedIter.next k s).optional_iter.isSome
      = s.optional_iter.isSome := by
  induction k generalizing s with
  | zero => rfl
  | succ n ih =>
    calc (stateAfter OptionTransposedIter.next (n + 1) s).optional_iter.isSome
        = (stateAfter OptionTransposedIter.next n
            (OptionTransposedIter.next s).2).optional_iter.isSome := rfl
      _ = ((OptionTransposedIter.next s).2).optional_iter.isSome := ih _
      _ = s.optional_iter.isSome := stateAfter_optStep s

theorem stateAfter_resStep {α ε : Type} (s : ResultTransposedIter α ε) :
    ((ResultTransposedIter.next s).2).result_iter.isOk = s.result_iter.isOk := by
  cases s with
  | mk r =>
    cases r with
    | error e => rfl
    | ok l => rfl

theorem stateAfter_resDiscriminant {α ε : Type} (k : Nat) (s : ResultTransposedIter α ε) :
    (stateAfter ResultTransposedIter.next k s).result_iter.isOk = s.result_iter.isOk := by
  induction k generalizing s with
  | zero => rfl
  | succ n ih =>
    calc (stateAfter ResultTransposedIter.next (n + 1) s).result_iter.isOk
        = (stateAfter ResultTransposedIter.next n
            (ResultTransposedIter.next s).2).result_iter.isOk := rfl
      _ = ((ResultTransposedIter.next s).2).result_iter.isOk := ih _
      _ = s.result_iter.isOk := stateAfter_resStep s

theorem stateAfter_resErr {α ε : Type} (e : ε) (k : Nat) :
    stateAfter ResultTransposedIter.next k (⟨.error e⟩ : ResultTransposedIter α ε)
      = ⟨.error e⟩ := by
  induction k with
  | zero => rfl
  | succ n ih => simpa [stateAfter, resNext_err] using ih

/-! ### Collection lemmas -/

theorem ctw_optSome {α : Type} (n : Nat) (S : List α) :
    collectTakeWhile OptionTransposedIter.next Option.isSome n ⟨some S⟩
      = (S.take n).map some := by
  induction n generalizing S with
  | zero => rfl
  | succ m ih =>
    cases S with
    | nil => simp [collectTakeWhile, optNext_nil]
    | cons x xs => simp [collectTakeWhile, optNext_cons, ih]

theorem ctw_optNone {α : Type} (n : Nat) :
    collectTakeWhile OptionTransposedIter.next Option.isSome n
        (⟨none⟩ : OptionTransposedIter α)
      = [] := by
  cases n with
  | zero => rfl
  | succ m => simp [collectTakeWhile, optNext_none]

theorem ctw_resOk {α ε : Type} (n : Nat) (S : List α) :
    collectTakeWhile ResultTransposedIter.next Except.isOk n
        (⟨.ok S⟩ : ResultTransposedIter α ε)
      = (S.take n).map Except.ok := by
  induction n generalizing S with
  | zero => rfl
  | succ m ih =>
    cases S with
    | nil => simp [collectTakeWhile, resNext_nil]
    | cons x xs => simp [collectTakeWhile, resNext_cons, ih, Except.isOk, Except.toBool]

theorem ctw_resErr {α ε : Type} (n : Nat) (e : ε) :
    collectTakeWhile ResultTransposedIter.next Except.isOk n
        (⟨.error e⟩ : ResultTransposedIter α ε)
      = [] := by
  cases n with
  | zero => rfl
  | succ m => simp [collectTakeWhile, resNext_err, Except.isOk, Except.toBool]

/-- Generic safety of the `take_while(p).map(f).collect()` pipeline: when
every item passing the filter `p` is unwrapped successfully by `f` and is
reconstructed by `g`, the pipeline never reaches the panic branch of `f`,
and re-wrapping its output with `g` recovers the plain `take_while(p)`
collection. -/
theorem ctwm_safe {σ ι β : Type} (next : σ → Option ι × σ) (p : ι → Bool)
    (f : ι → Option β) (g : β → ι)
    (hpf : ∀ x, p x = true → ∃ y, f x = some y ∧ g y = x) :
    ∀ (n : Nat) (s : σ),
      (collectTakeWhileMap next p f n s).map (List.map g)
        = some (collectTakeWhile next p n s) := by
  intro n
  induction n with
  | zero => intro s; rfl
  | succ m ih =>
    intro s
    cases ho : (next s).1 with
    | none => simp [collectTakeWhileMap, collectTakeWhile, ho]
    | some x =>
      cases hp : p x with
      | false => simp [collectTakeWhileMap, collectTakeWhile, ho, hp]
      | true =>
        obtain ⟨y, hf, hg⟩ := hpf x hp
        have ihs := ih (next s).2
        cases hu : collectTakeWhileMap next p f m (next s).2 with
        | none => rw [hu] at ihs; simp at ihs
        | some l =>
          rw [hu] at ihs
          simp at ihs
          simp [collectTakeWhileMap, collectTakeWhile, ho, hp, hf, hu, hg, ihs]

/-! ### Claim theorems -/

/-- Claim C1: for every finite sequence `S` of length `n` wrapped as
present (`Some`) or success (`Ok`), the first `n` produce-next calls yield
`Some(S[0])..Some(S[n-1])` (respectively `Ok(S[0])..Ok(S[n-1])`), and the
`(n+1)`-th call signals end of sequence. -/
theorem transpose_iter_yields_sequence_then_end (α ε : Type) (S : List α) :
    iterOutputs OptionTransposedIter.next (S.length + 1)
        (optionTransposeIntoIter (some S))
      = S.map (fun x => some (some x)) ++ [none]
    ∧ iterOutputs ResultTransposedIter.next (S.length + 1)
        (resultTransposeIntoIter (Except.ok S) : ResultTransposedIter α ε)
      = S.map (fun x => some (.ok x)) ++ [none] := by
  constructor
  · simpa using iterOutputs_optSome S 1
  · simpa using iterOutputs_resOk (ε := ε) S 1

/-- Claim C2: `transpose` on `Some S` (resp. `Ok S`) materializes exactly
`S`'s elements, each wrapped as `Some` (resp. `Ok`), hence a collection of
length `|S|`; `transpose` on `None` or `Err e` yields the empty
collection. -/
theorem transpose_materializes_wrapped_sequence (α ε : Type) (S : List α) (e : ε) :
    optionTranspose (some S) = S.map some
    ∧ optionTranspose (none : Option (List α)) = []
    ∧ resultTranspose (Except.ok S : Except ε (List α)) = S.map Except.ok
    ∧ resultTranspose (Except.error e : Except ε (List α)) = [] := by
  refine ⟨?_, ?_, ?_, ?_⟩
  · rw [optionTranspose, optionTransposeIntoIter, optionFuel, ctw_optSome,
      List.take_of_length_le (by omega)]
  · exact ctw_optNone _
  · rw [resultTranspose, resultTransposeIntoIter, resultFuel, ctw_resOk,
      List.take_of_length_le (by omega)]
  · exact ctw_resErr _ e

/-- Claim C3, counterexample: construct the adapter from `Some [1]` and
exhaust its cursor with one produce-next call; the further call does NOT
yield the item `Some(None)` (it signals end of sequence instead). -/
theorem exhausted_adapter_absent_item_counterexample :
    ¬ ((OptionTransposedIter.next
          ((OptionTransposedIter.next (optionTransposeIntoIter (some [1]))).2)).1
        = some (none : Option Nat)) := by
  decide

/-- Claim C3, amended: for a present sequence `S`, after `|S|` produce-next
calls the cursor is exhausted (state `Some` of a spent cursor), and every
further call signals end of sequence (`None`), indefinitely, leaving the
spent cursor state unchanged throughout. -/
theorem exhausted_adapter_ends_forever (α : Type) (S : List α) (k : Nat) :
    stateAfter OptionTransposedIter.next S.length (optionTransposeIntoIter (some S))
      = (⟨some []⟩ : OptionTransposedIter α)
    ∧ iterOutputs OptionTransposedIter.next k
        (stateAfter OptionTransposedIter.next S.length (optionTransposeIntoIter (some S)))
      = List.replicate k none
    ∧ stateAfter OptionTransposedIter.next k
        (stateAfter OptionTransposedIter.next S.length (optionTransposeIntoIter (some S)))
      = (⟨some []⟩ : OptionTransposedIter α) := by
  have hs : stateAfter OptionTransposedIter.next S.length (optionTransposeIntoIter (some S))
      = (⟨some []⟩ : OptionTransposedIter α) := stateAfter_optSome S
  refine ⟨hs, ?_, ?_⟩
  · rw [hs]; exact iterOutputs_optSpent k
  · rw [hs]
    induction k with
    | zero => rfl
    | succ n ih => simpa [stateAfter, optNext_nil] using ih

/-- Claim C4: for an absent wrapper (`None`), every produce-next call
yields the item `Some(None)`: for every `k`, the first `k` calls all return
`Some(None)`, so the adapter never signals end of sequence. -/
theorem none_adapter_yields_absent_forever (α : Type) (k : Nat) :
    iterOutputs OptionTransposedIter.next k
        (optionTransposeIntoIter (none : Option (List α)))
      = List.replicate k (some none) :=
  iterOutputs_optNone k

/-- Claim C5: for a failure wrapper `Err e`, every produce-next call yields
`Some(Err e)` (a duplicate of the retained error), forever, and the
adapter's retained state is unchanged by every call. -/
theorem err_adapter_replays_error_forever (α ε : Type) (e : ε) (k : Nat) :
    iterOutputs ResultTransposedIter.next k
        (resultTransposeIntoIter (Except.error e) : ResultTransposedIter α ε)
      = List.replicate k (some (.error e))
    ∧ stateAfter ResultTransposedIter.next k
        (resultTransposeIntoIter (Except.error e) : ResultTransposedIter α ε)
      = resultTransposeIntoIter (Except.error e) :=
  ⟨iterOutputs_resErr e k, stateAfter_resErr e k⟩

/-- Claim C6: `transpose` equals `transpose_into_iter` followed by the
truncation combinator (`take_while_some` / `take_while_ok`) and collection,
at every fuel bound large enough for the pipeline to have stopped — the
collected result is the same finite list regardless of the bound. -/
theorem transpose_eq_truncated_collect (α ε : Type) (o : Option (List α))
    (r : Except ε (List α)) (n m : Nat)
    (hn : optionFuel o ≤ n) (hm : resultFuel r ≤ m) :
    collectTakeWhile OptionTransposedIter.next Option.isSome n (optionTransposeIntoIter o)
      = optionTranspose o
    ∧ collectTakeWhile ResultTransposedIter.next Except.isOk m (resultTransposeIntoIter r)
      = resultTranspose r := by
  constructor
  · cases o with
    | none =>
      rw [optionTranspose, optionTransposeIntoIter, ctw_optNone, ctw_optNone]
    | some S =>
      rw [optionFuel] at hn
      rw [optionTranspose, optionTransposeIntoIter, optionFuel, ctw_optSome, ctw_optSome,
        List.take_of_length_le (by omega), List.take_of_length_le (by omega)]
  · cases r with
    | error e =>
      rw [resultTranspose, resultTransposeIntoIter, ctw_resErr, ctw_resErr]
    | ok S =>
      rw [resultFuel] at hm
      rw [resultTranspose, resultTransposeIntoIter, resultFuel, ctw_resOk, ctw_resOk,
        List.take_of_length_le (by omega), List.take_of_length_le (by omega)]

/-- Witness for claim C6 at concrete inputs `Some [1, 2]` and `Ok [3]` with
fuel bound `5`. -/
theorem transpose_eq_truncated_collect_witness :
    optionFuel (some [1, 2]) ≤ 5
    ∧ resultFuel (Except.ok [3] : Except Nat (List Nat)) ≤ 5
    ∧ (collectTakeWhile OptionTransposedIter.next Option.isSome 5
          (optionTransposeIntoIter (some [1, 2]))
        = optionTranspose (some [1, 2])
      ∧ collectTakeWhile ResultTransposedIter.next Except.isOk 5
          (resultTransposeIntoIter (Except.ok [3] : Except Nat (List Nat)))
        = resultTranspose (Except.ok [3] : Except Nat (List Nat))) :=
  ⟨by decide, by decide,
    transpose_eq_truncated_collect Nat Nat (some [1, 2]) (Except.ok [3]) 5 5
      (by decide) (by decide)⟩

/-- Claim C7: for a success wrapper `Ok S`, the first `|S|` produce-next
calls yield success items `Ok(S[i])`, every later call signals end of
sequence, and no failure item is ever produced. -/
theorem ok_adapter_ends_after_exhaustion (α ε : Type) (S : List α) (k : Nat) :
    iterOutputs ResultTransposedIter.next (S.length + k)
        (resultTransposeIntoIter (Except.ok S) : ResultTransposedIter α ε)
      = S.map (fun x => some (.ok x)) ++ List.replicate k none
    ∧ ∀ o ∈ iterOutputs ResultTransposedIter.next (S.length + k)
        (resultTransposeIntoIter (Except.ok S) : ResultTransposedIter α ε),
        ∀ e : ε, o ≠ some (Except.error e) := by
  have h : iterOutputs ResultTransposedIter.next (S.length + k)
      (resultTransposeIntoIter (Except.ok S) : ResultTransposedIter α ε)
      = S.map (fun x => some (.ok x)) ++ List.replicate k none :=
    iterOutputs_resOk S k
  refine ⟨h, ?_⟩
  intro o ho e
  rw [h] at ho
  rcases List.mem_append.mp ho with hmem | hmem
  · obtain ⟨x, _, rfl⟩ := List.mem_map.mp hmem
    simp
  · rw [List.eq_of_mem_replicate hmem]
    simp

/-- Claim C8: for every wrapped input and every fuel bound,
`unwrap_while_some` (resp. `unwrap_while_ok`), i.e. the
`take_while(is_some).map(unwrap)` pipeline, never reaches unwrap's panic
branch, and re-wrapping its output item-wise with `Some` (resp. `Ok`)
recovers exactly the `take_while_some` (resp. `take_while_ok`)
collection. -/
theorem unwrap_while_eq_take_while_unwrap (α ε : Type) (o : Option (List α))
    (r : Except ε (List α)) (n : Nat) :
    (collectTakeWhileMap OptionTransposedIter.next Option.isSome unwrapO n
        (optionTransposeIntoIter o)).map (List.map some)
      = some (collectTakeWhile OptionTransposedIter.next Option.isSome n
        (optionTransposeIntoIter o))
    ∧ (collectTakeWhileMap ResultTransposedIter.next Except.isOk unwrapR n
        (resultTransposeIntoIter r)).map (List.map Except.ok)
      = some (collectTakeWhile ResultTransposedIter.next Except.isOk n
        (resultTransposeIntoIter r)) := by
  constructor
  · refine ctwm_safe _ _ _ _ (fun x hx => ?_) n _
    cases x with
    | none => simp at hx
    | some y => exact ⟨y, rfl, rfl⟩
  · refine ctwm_safe _ _ _ _ (fun x hx => ?_) n _
    cases x with
    | error e => simp [Except.isOk, Except.toBool] at hx
    | ok y => exact ⟨y, rfl, rfl⟩

/-- Claim C9: produce-next never changes an adapter's discriminant: after
any number of calls the Option adapter is still present iff it started
present, and the Result adapter is still success iff it started success;
only the active cursor advances. -/
theorem adapter_discriminant_invariant (α ε : Type) (s : OptionTransposedIter α)
    (t : ResultTransposedIter α ε) (k : Nat) :
    (stateAfter OptionTransposedIter.next k s).optional_iter.isSome
      = s.optional_iter.isSome
    ∧ (stateAfter ResultTransposedIter.next k t).result_iter.isOk
      = t.result_iter.isOk :=
  ⟨stateAfter_optDiscriminant k s, stateAfter_resDiscriminant k t⟩

/-- Claim C10: for every element type, `transpose` on `Some []` and on
`None` both yield the empty collection, even though the raw transposed
iterators differ on their very first produce-next call. -/
theorem transpose_empty_eq_transpose_none (α : Type) :
    optionTranspose (some ([] : List α)) = optionTranspose (none : Option (List α))
    ∧ (OptionTransposedIter.next (optionTransposeIntoIter (some ([] : List α)))).1
      ≠ (OptionTransposedIter.next (optionTransposeIntoIter (none : Option (List α)))).1 := by
  constructor
  · rw [optionTranspose, optionTranspose, optionTransposeIntoIter, optionTransposeIntoIter,
      ctw_optNone, ctw_optSome]
    rfl
  · intro hcontra
    simp [optionTransposeIntoIter, optNext_nil, optNext_none] at hcontra
